import Mathlib

set_option maxRecDepth 8000

/-!
Verification of the KLF-200 gateway core (frame codec, position conversion,
client operations, node cache, connection supervisor) against its
natural-language specification.  Byte values are modelled as `Nat` (with
explicit `% 256` / `% 65536` where the Go code truncates), byte strings as
`List Nat`, `float64` position arithmetic as `ℚ`, and fallible operations as
`Except`.
-/

namespace KLF200

/-- SLIP END delimiter byte (0xC0). -/
def SlipEnd : Nat := 0xC0

/-- SLIP escape byte (0xDB). -/
def SlipEsc : Nat := 0xDB

/-- Escaped END (0xDC). -/
def SlipEscEnd : Nat := 0xDC

/-- Escaped ESC (0xDD). -/
def SlipEscEsc : Nat := 0xDD

/-- Decode errors of the frame codec, mirroring `ErrInvalidFrame`,
`ErrChecksumMismatch`, `ErrFrameTooShort`. -/
inductive FrameError where
  | invalidFrame
  | checksumMismatch
  | frameTooShort
deriving DecidableEq, Repr

/-- A decoded protocol frame: 16-bit command id and payload. -/
structure Frame where
  command : Nat
  data : List Nat
deriving DecidableEq, Repr

instance {ε α : Type} [DecidableEq ε] [DecidableEq α] : DecidableEq (Except ε α) := fun a b =>
  match a, b with
  | .ok x, .ok y =>
    if h : x = y then isTrue (by rw [h]) else isFalse (fun hc => h (Except.ok.inj hc))
  | .error x, .error y =>
    if h : x = y then isTrue (by rw [h]) else isFalse (fun hc => h (Except.error.inj hc))
  | .ok _, .error _ => isFalse (fun hc => Except.noConfusion hc)
  | .error _, .ok _ => isFalse (fun hc => Except.noConfusion hc)

/-- XOR of a byte sequence (the frame checksum). -/
def xorBytes (l : List Nat) : Nat := l.foldl (· ^^^ ·) 0

/-- Big-endian bytes of a 16-bit value (Go `binary.BigEndian` on `uint16`). -/
def u16be (n : Nat) : List Nat := [n % 65536 / 256, n % 256]

/-- SLIP escaping of one byte. -/
def escByte (b : Nat) : List Nat :=
  if b = SlipEnd then [SlipEsc, SlipEscEnd]
  else if b = SlipEsc then [SlipEsc, SlipEscEsc]
  else [b]

/-- `slipEncode` from the source: END, escaped body, END. -/
def slipEncode (data : List Nat) : List Nat :=
  SlipEnd :: data.flatMap escByte ++ [SlipEnd]

/-- Unescaped frame body built by `EncodeFrame`: length byte, command (big
endian), data, then XOR checksum over all preceding bytes. -/
def encodeBody (cmd : Nat) (data : List Nat) : List Nat :=
  let body := ((data.length + 3) % 256) :: u16be cmd ++ data
  body ++ [xorBytes body]

/-- `EncodeFrame` from the source. -/
def EncodeFrame (cmd : Nat) (data : List Nat) : List Nat :=
  slipEncode (encodeBody cmd data)

/-- Strip leading and trailing END markers (the index loops of
`slipDecode`). -/
def stripEnds (l : List Nat) : List Nat :=
  ((l.dropWhile (· == SlipEnd)).reverse.dropWhile (· == SlipEnd)).reverse

/-- The unescaping loop of `slipDecode`: a dangling or invalid escape is
`ErrInvalidFrame`. -/
def unescape : List Nat → Except FrameError (List Nat)
  | [] => .ok []
  | b :: rest =>
    if b = SlipEsc then
      match rest with
      | [] => .error .invalidFrame
      | c :: rest2 =>
        if c = SlipEscEnd then (unescape rest2).map (SlipEnd :: ·)
        else if c = SlipEscEsc then (unescape rest2).map (SlipEsc :: ·)
        else .error .invalidFrame
    else (unescape rest).map (b :: ·)

/-- `slipDecode` from the source: length precheck, strip END markers,
reject an all-END input, then unescape. -/
def slipDecode (raw : List Nat) : Except FrameError (List Nat) :=
  if raw.length < 2 then .error .frameTooShort
  else if (stripEnds raw).isEmpty then .error .invalidFrame
  else unescape (stripEnds raw)

/-- The body checks of `DecodeFrame` after `slipDecode`: minimum length,
checksum over all bytes but the last, length-byte consistency, then
extract command and payload. -/
def decodeBody (body : List Nat) : Except FrameError Frame :=
  if body.length < 4 then .error .frameTooShort
  else if xorBytes body.dropLast ≠ body.getLastD 0 then .error .checksumMismatch
  else if body.headD 0 > body.length - 1 then .error .invalidFrame
  else .ok ⟨(body.getD 1 0) * 256 + body.getD 2 0, (body.drop 3).dropLast⟩

/-- `DecodeFrame` from the source. -/
def DecodeFrame (raw : List Nat) : Except FrameError Frame :=
  match slipDecode raw with
  | .error e => .error e
  | .ok body => decodeBody body

/-- Command ids from `types.go`. -/
def GW_ERROR_NTF : Nat := 0x0000

def GW_PASSWORD_ENTER_REQ : Nat := 0x3000

def GW_PASSWORD_ENTER_CFM : Nat := 0x3001

def GW_GET_ALL_NODES_INFORMATION_REQ : Nat := 0x0202

def GW_GET_ALL_NODES_INFORMATION_CFM : Nat := 0x0203

def GW_GET_ALL_NODES_INFORMATION_NTF : Nat := 0x0204

def GW_GET_ALL_NODES_INFORMATION_FINISHED_NTF : Nat := 0x0205

def GW_COMMAND_SEND_REQ : Nat := 0x0300

def GW_COMMAND_SEND_CFM : Nat := 0x0301

def GW_COMMAND_RUN_STATUS_NTF : Nat := 0x0302

def GW_NODE_STATE_POSITION_CHANGED_NTF : Nat := 0x0211

/-- Modelled from the spec: the limitation-query command ids
(`GW_GET_LIMITATION_STATUS_REQ`/`CFM` and `GW_LIMITATION_STATUS_NTF`) are
referenced by `client.go` but their defining file is not in the sources;
only their distinctness matters for the claims below. -/
def GW_GET_LIMITATION_STATUS_REQ : Nat := 0x0312

/-- Modelled from the spec: see `GW_GET_LIMITATION_STATUS_REQ`. -/
def GW_GET_LIMITATION_STATUS_CFM : Nat := 0x0313

/-- Modelled from the spec: see `GW_GET_LIMITATION_STATUS_REQ`. -/
def GW_LIMITATION_STATUS_NTF : Nat := 0x0314

/-- Special raw position values from `types.go`. -/
def PositionMax : Nat := 0xC800

/-- Raw value meaning: keep the current position (stop semantics). -/
def PositionCurrent : Nat := 0xD100

/-- Raw value meaning: ignore this parameter. -/
def PositionIgnore : Nat := 0xD400

/-- `PositionToPercent` from `types.go`; Go `float64` arithmetic is modelled
over `ℚ` (every quantity in the claims is exactly representable and the
operations round monotonically, so the claimed facts agree). -/
def PositionToPercent (raw : Nat) : ℚ :=
  if raw > PositionMax then 100 else (raw : ℚ) / (PositionMax : ℚ) * 100

/-- `PercentToPosition` from `types.go`: clamp the percent into `[0,100]`,
then truncate `percent / 100 * 51200` to an integer (the Go float-to-uint16
conversion; nonnegative here, so truncation is the floor). -/
def PercentToPosition (percent : ℚ) : Nat :=
  let p := if percent < 0 then (0 : ℚ) else if percent > 100 then 100 else percent
  (⌊p / 100 * (PositionMax : ℚ)⌋).toNat

/-- `BuildPasswordEnterRequest` from the source: the password bytes are
copied into a 32-byte zero-padded buffer. -/
def BuildPasswordEnterRequest (password : List Nat) : List Nat :=
  EncodeFrame GW_PASSWORD_ENTER_REQ
    (password.take 32 ++ List.replicate (32 - password.length) 0)

/-- `BuildGetAllNodesRequest` from the source. -/
def BuildGetAllNodesRequest : List Nat :=
  EncodeFrame GW_GET_ALL_NODES_INFORMATION_REQ []

/-- `BuildCommandSendRequest` from the source: session id, originator,
priority, parameter flags, main parameter, 16 functional parameters
(defaulting to `PositionIgnore`), node id array padded to 20, locks. -/
def BuildCommandSendRequest (sessionID originator priority : Nat) (nodeIDs : List Nat)
    (mainParameter : Nat) (fps : List Nat) : List Nat :=
  let payload :=
    u16be sessionID ++ [originator % 256, priority % 256, 0x01]
      ++ [0, 0] ++ [0, 0]
      ++ u16be mainParameter
      ++ (List.range 16).flatMap
          (fun i => if i < fps.length then u16be (fps.getD i 0) else u16be PositionIgnore)
      ++ [nodeIDs.length % 256]
      ++ nodeIDs.map (· % 256)
      ++ List.replicate (20 - nodeIDs.length) 0
      ++ [0, 0] ++ List.replicate 8 0 ++ [0]
  EncodeFrame GW_COMMAND_SEND_REQ payload

/-- Modelled from the spec: `BuildGetLimitationStatusRequest` is called by
`client.go` but its defining file is not in the sources; the payload layout
(session id, node id array, limitation type) follows the spec's message
description.  The claims below depend only on a frame being written. -/
def BuildGetLimitationStatusRequest (sessionID : Nat) (nodeIDs : List Nat)
    (limitationType : Nat) : List Nat :=
  EncodeFrame GW_GET_LIMITATION_STATUS_REQ
    (u16be sessionID ++ [nodeIDs.length % 256] ++ nodeIDs.map (· % 256)
      ++ List.replicate (20 - nodeIDs.length) 0 ++ [limitationType % 256])

/-- Modelled from the spec: the rain/wind/none limitation-origin codes are
referenced by `client.go` but defined in a file not in the sources; only
their distinctness matters for the claims below. -/
def LimitationTypeNone : Nat := 0

/-- Modelled from the spec: see `LimitationTypeNone`. -/
def LimitationTypeRain : Nat := 1

/-- Modelled from the spec: see `LimitationTypeNone`. -/
def LimitationTypeWind : Nat := 2

/-- Sensor state derived from limitation notifications (`SensorStatus`). -/
structure SensorStatus where
  rainDetected : Bool
  windDetected : Bool
  lastUpdate : Nat
deriving DecidableEq, Repr

/-- Modelled from the spec: the parsed limitation-status notification
(node id, limitation origin, min/max raw values); its defining file is not
in the sources. -/
structure LimitationStatus where
  nodeID : Nat
  limitationOrigin : Nat
  minValue : Nat
  maxValue : Nat
deriving DecidableEq, Repr

/-- Modelled from the spec: parser for the limitation-status notification;
the exact offsets are immaterial to the claims below. -/
def ParseLimitationStatusNotification (data : List Nat) : Option LimitationStatus :=
  if data.length < 6 then none
  else some ⟨data.getD 0 0, data.getD 1 0,
    data.getD 2 0 * 256 + data.getD 3 0, data.getD 4 0 * 256 + data.getD 5 0⟩

/-- `Client.updateSensorStatus` from `client.go`: stamp `LastUpdate`, set the
rain/wind flag for the matching origin, clear both on an explicit
no-limitation origin. -/
def updateSensorStatus (st : SensorStatus) (now : Nat) (status : LimitationStatus) :
    SensorStatus :=
  let st1 := { st with lastUpdate := now }
  let st2 :=
    if status.limitationOrigin = LimitationTypeRain then { st1 with rainDetected := true }
    else if status.limitationOrigin = LimitationTypeWind then { st1 with windDetected := true }
    else st1
  if status.limitationOrigin = LimitationTypeNone then
    { st2 with rainDetected := false, windDetected := false }
  else st2

/-- Errors surfaced by the client operations in `client.go`. -/
inductive ClientError where
  | notAuthenticated
  | notConnected
  | confirmTimeout
  | commandTimeout
  | authenticationFailed
  | parseFailure
  | klfError (code : Nat)
  | commandFailed (status : Nat)
deriving DecidableEq, Repr

/-- Outcome of one client operation: its result together with the raw
frames it wrote to the transport. -/
structure OpResult (α : Type) where
  result : Except ClientError α
  sent : List (List Nat)

/-- The received-frame script consumed by an operation: each entry is a
delivered frame, and a `none` entry (or exhaustion) is a read timeout. -/
abbrev RecvScript := List (Option Frame)

/-- `Client.waitForResponse` for a specific expected command: non-matching
frames are consumed (handled as asynchronous) until the target command
arrives or the deadline elapses (`none` / end of script). -/
def waitFor (target : Nat) : RecvScript → Option (Frame × RecvScript)
  | [] => none
  | none :: _ => none
  | some f :: rest => if f.command = target then some (f, rest) else waitFor target rest

/-- The node-collection loop of `Client.GetAllNodes`: node notifications are
parsed and accumulated (parse failures skipped), the finished notification
or a timeout ends the stream, anything else is discarded.  The
node-descriptor parser is a parameter: two conflicting revisions of it
exist in the sources and its details are immaterial to the claims. -/
def collectNodes {α : Type} (parse : List Nat → Option α) : RecvScript → List α
  | [] => []
  | none :: _ => []
  | some f :: rest =>
    if f.command = GW_GET_ALL_NODES_INFORMATION_NTF then
      match parse f.data with
      | some n => n :: collectNodes parse rest
      | none => collectNodes parse rest
    else if f.command = GW_GET_ALL_NODES_INFORMATION_FINISHED_NTF then []
    else collectNodes parse rest

/-- `Client.GetAllNodes` from `client.go`: authentication precondition, send
the request, wait for the confirmation (timeout is a failure), then collect
streamed node notifications (timeout is the success terminator). -/
def GetAllNodes {α : Type} (authenticated : Bool) (parse : List Nat → Option α)
    (script : RecvScript) : OpResult (List α) :=
  if !authenticated then ⟨.error .notAuthenticated, []⟩
  else
    match waitFor GW_GET_ALL_NODES_INFORMATION_CFM script with
    | none => ⟨.error .confirmTimeout, [BuildGetAllNodesRequest]⟩
    | some (_, rest) => ⟨.ok (collectNodes parse rest), [BuildGetAllNodesRequest]⟩

/-- The confirmation-wait loop of `Client.SetPosition`: an error
notification or a failure status fails the command, a confirmation with
status at most 1 succeeds, other frames are consumed, a timeout fails. -/
def awaitCommandConfirm : RecvScript → Except ClientError Unit
  | [] => .error .commandTimeout
  | none :: _ => .error .commandTimeout
  | some f :: rest =>
    if f.command = GW_ERROR_NTF then .error (.klfError (f.data.headD 0))
    else if f.command = GW_COMMAND_SEND_CFM then
      if f.data.length < 3 then .error .parseFailure
      else if f.data.getD 2 0 > 1 then .error (.commandFailed (f.data.getD 2 0))
      else .ok ()
    else awaitCommandConfirm rest

/-- `Client.SetPosition` from `client.go`: authentication precondition,
convert the percent (clamping) to a raw position, send the command frame,
await the confirmation. -/
def SetPosition (authenticated : Bool) (sessionID nodeID : Nat) (percent : ℚ)
    (script : RecvScript) : OpResult Unit :=
  if !authenticated then ⟨.error .notAuthenticated, []⟩
  else
    let frame :=
      BuildCommandSendRequest sessionID 1 3 [nodeID] (PercentToPosition percent) []
    ⟨awaitCommandConfirm script, [frame]⟩

/-- `Client.Stop` from `client.go`: authentication precondition, send a
command with the keep-current position sentinel, return without waiting. -/
def Stop (authenticated : Bool) (sessionID nodeID : Nat) : OpResult Unit :=
  if !authenticated then ⟨.error .notAuthenticated, []⟩
  else ⟨.ok (), [BuildCommandSendRequest sessionID 1 3 [nodeID] PositionCurrent []]⟩

/-- `Client.Authenticate` from `client.go`: connection precondition, send
the password frame, wait for the confirmation, fail on timeout or nonzero
status byte.  (Enabling the house-status monitor afterwards is logged-only
and not modelled.) -/
def Authenticate (connected : Bool) (password : List Nat) (script : RecvScript) :
    OpResult Unit :=
  if !connected then ⟨.error .notConnected, []⟩
  else
    let frame := BuildPasswordEnterRequest password
    match waitFor GW_PASSWORD_ENTER_CFM script with
    | none => ⟨.error .confirmTimeout, [frame]⟩
    | some (f, _) =>
      if f.data.length < 1 then ⟨.error .parseFailure, [frame]⟩
      else if f.data.getD 0 0 = 0 then ⟨.ok (), [frame]⟩
      else ⟨.error .authenticationFailed, [frame]⟩

/-- The limitation-collection loop of `Client.GetLimitationStatus`:
limitation notifications are parsed, accumulated, and applied to the
sensor state; a timeout (or end of script) ends the stream. -/
def collectLimitations (now : Nat) :
    RecvScript → SensorStatus → List LimitationStatus × SensorStatus
  | [], st => ([], st)
  | none :: _, st => ([], st)
  | some f :: rest, st =>
    if f.command = GW_LIMITATION_STATUS_NTF then
      match ParseLimitationStatusNotification f.data with
      | some status =>
        let st2 := updateSensorStatus st now status
        let res := collectLimitations now rest st2
        (status :: res.1, res.2)
      | none => collectLimitations now rest st
    else collectLimitations now rest st

/-- `Client.GetLimitationStatus` from `client.go`: authentication
precondition, send the query, wait for the confirmation (timeout fails),
then collect streamed limitation notifications (timeout is the success
terminator), updating the sensor state per notification. -/
def GetLimitationStatus (authenticated : Bool) (sessionID : Nat) (nodeIDs : List Nat)
    (script : RecvScript) (st : SensorStatus) (now : Nat) :
    OpResult (List LimitationStatus) × SensorStatus :=
  if !authenticated then (⟨.error .notAuthenticated, []⟩, st)
  else
    let frame := BuildGetLimitationStatusRequest sessionID nodeIDs 0
    match waitFor GW_GET_LIMITATION_STATUS_CFM script with
    | none => (⟨.error .confirmTimeout, [frame]⟩, st)
    | some (_, rest) =>
      let res := collectLimitations now rest st
      (⟨.ok res.1, [frame]⟩, res.2)

/-- `Client.RefreshSensorStatus` from `client.go`: run the limitation query;
on any failure keep the previous reading, stamp `LastUpdate` to record the
attempt, and report success regardless. -/
def RefreshSensorStatus (authenticated : Bool) (sessionID : Nat) (nodeIDs : List Nat)
    (script : RecvScript) (st : SensorStatus) (now : Nat) : SensorStatus :=
  let r := GetLimitationStatus authenticated sessionID nodeIDs script st now
  match r.1.result with
  | .error _ => { r.2 with lastUpdate := now }
  | .ok _ => r.2

/-- Flip bit `k` of the byte at position `i` (out-of-range `i` leaves the
list unchanged, out-of-range `k` is harmless: the claims bound both). -/
def flipBit (l : List Nat) (i k : Nat) : List Nat :=
  l.set i (l.getD i 0 ^^^ 2 ^ k)

/-- A cached node record (`Node` in `types.go`): strings as `String`, the
derived percent fields as `ℚ`, the timestamp as `Nat`. -/
structure NodeRec where
  id : Nat
  name : String
  nodeType : Nat
  state : Nat
  stateStr : String
  currentPosition : Nat
  positionPercent : ℚ
  targetPosition : Nat
  targetPercent : ℚ
  velocity : Nat
  lastUpdate : Nat
deriving DecidableEq, Repr

/-- The merge `NodeManager.UpdateNode` performs on an existing entry:
position always, target only when the update's raw target is nonzero,
state always, state string only when nonempty, stamp `LastUpdate`. -/
def patchNode (node upd : NodeRec) (now : Nat) : NodeRec :=
  let n1 := { node with currentPosition := upd.currentPosition,
                        positionPercent := upd.positionPercent }
  let n2 :=
    if upd.targetPosition ≠ 0 then
      { n1 with targetPosition := upd.targetPosition, targetPercent := upd.targetPercent }
    else n1
  let n3 := { n2 with state := upd.state }
  let n4 := if upd.stateStr ≠ "" then { n3 with stateStr := upd.stateStr } else n3
  { n4 with lastUpdate := now }

/-- The node cache of `NodeManager`: an association of node id to record
(the Go map keyed by `Node.ID`). -/
abbrev NodeCache := List (Nat × NodeRec)

/-- `NodeManager.UpdateNode` from `nodes.go`: patch the entry carrying the
update's id if present; an unknown id changes nothing.  The Go function
returns nothing, so "reports no error" is the type of this function. -/
def UpdateNode (cache : NodeCache) (upd : NodeRec) (now : Nat) : NodeCache :=
  cache.map (fun kv => if kv.1 = upd.id then (kv.1, patchNode kv.2 upd now) else kv)

/-- The client's connection flags observed by the supervisor (the
`connected` / `authenticated` atomics of `client.go`). -/
structure ClientFlags where
  connected : Bool
  authenticated : Bool
deriving DecidableEq, Repr

/-- Flag changes the client code performs: a successful `Connect` sets
`connected` (a no-op when already connected); a successful `Authenticate`,
which requires `connected`, sets `authenticated`; failed attempts change
nothing (covered by reflexivity); `Disconnect` and the read loop's
disconnect handler clear both flags. -/
inductive ClientStep : ClientFlags → ClientFlags → Prop where
  | connectOk (s : ClientFlags) : ClientStep s { s with connected := true }
  | authOk (s : ClientFlags) (h : s.connected = true) :
      ClientStep s { s with authenticated := true }
  | disconnect (s : ClientFlags) : ClientStep s ⟨false, false⟩

/-- States reachable from the freshly constructed client (both flags
false). -/
def ReachableFlags (s : ClientFlags) : Prop :=
  Relation.ReflTransGen ClientStep ⟨false, false⟩ s

/-- The guard of `Service.reconnectLoop`: a tick attempts the full
connect/auth/enumerate sequence iff the client is not connected. -/
def reconnectTickConnects (s : ClientFlags) : Bool := !s.connected

/-- The guard of `Service.refreshLoop`: a tick runs the full enumeration iff
the client is authenticated. -/
def refreshTickEnumerates (s : ClientFlags) : Bool := s.authenticated

/-- The supervisor's Ready state (§4.7): connected and authenticated. -/
def isReady (s : ClientFlags) : Bool := s.connected && s.authenticated

/-- The supervisor's Disconnected state (§4.7): not connected. -/
def isDisconnected (s : ClientFlags) : Bool := !s.connected

theorem reachable_auth_connected {s : ClientFlags} (h : ReachableFlags s) :
    s.authenticated = true → s.connected = true := by
  induction h with
  | refl => intro hc; cases hc
  | tail _ hstep ih =>
    cases hstep with
    | connectOk => intro _; rfl
    | authOk ht => intro _; exact ht
    | disconnect => intro hc; cases hc

example : PositionToPercent 25600 = 50 := by norm_num [PositionToPercent, PositionMax]

example : PercentToPosition 150 = 51200 := by
  norm_num [PercentToPosition, PositionMax]
  rfl

example : PercentToPosition (-3) = 0 := by norm_num [PercentToPosition, PositionMax]

theorem getLimitationStatus_error_state (auth : Bool) (sid : Nat) (ids : List Nat)
    (script : RecvScript) (st : SensorStatus) (now : Nat) (e : ClientError)
    (h : (GetLimitationStatus auth sid ids script st now).1.result = .error e) :
    (GetLimitationStatus auth sid ids script st now).2 = st := by
  unfold GetLimitationStatus at h ⊢
  cases auth with
  | false => rfl
  | true =>
    cases hw : waitFor GW_GET_LIMITATION_STATUS_CFM script with
    | none => simp [hw]
    | some pr => simp [hw] at h

/-- Claim C5: the raw-to-percent conversion is monotonic non-decreasing on
the domain [0, 51200], and maps 0 to 0, 51200 to 100, and 25600 to 50
exactly. -/
theorem positionToPercent_monotone_and_anchors :
    (∀ a b : Nat, a ≤ b → b ≤ 51200 → PositionToPercent a ≤ PositionToPercent b) ∧
    PositionToPercent 0 = 0 ∧ PositionToPercent 51200 = 100 ∧
    PositionToPercent 25600 = 50 := by
  refine ⟨fun a b hab hb => ?_,
    by norm_num [PositionToPercent, PositionMax],
    by norm_num [PositionToPercent, PositionMax],
    by norm_num [PositionToPercent, PositionMax]⟩
  have ha : a ≤ 51200 := le_trans hab hb
  have hcast : (a : ℚ) ≤ (b : ℚ) := by exact_mod_cast hab
  simp only [PositionToPercent, PositionMax]
  rw [if_neg (by omega), if_neg (by omega)]
  gcongr

/-- Witness for C5 at concrete positions 100 and 200. -/
theorem positionToPercent_monotone_witness :
    PositionToPercent 100 ≤ PositionToPercent 200 :=
  positionToPercent_monotone_and_anchors.1 100 200 (by norm_num) (by norm_num)

/-- Counterexample to claim C2 as stated: at percent 150 (outside [0,100]),
`SetPosition` succeeds and writes a frame to the transport instead of
rejecting the call. -/
theorem setPosition_out_of_range_cex :
    (SetPosition true 1 5 150 [some ⟨GW_COMMAND_SEND_CFM, [0, 1, 0]⟩]).result = .ok () ∧
    (SetPosition true 1 5 150 [some ⟨GW_COMMAND_SEND_CFM, [0, 1, 0]⟩]).sent ≠ [] := by
  constructor
  · rfl
  · simp [SetPosition]

/-- Claim C2 amended: `SetPosition` does not reject a percent outside
[0,100]; it clamps it to the nearest bound (inside `PercentToPosition`)
and proceeds exactly as if called with the clamped value. -/
theorem setPosition_clamps_out_of_range (auth : Bool) (sid nid : Nat) (p : ℚ)
    (script : RecvScript) (h : p < 0 ∨ 100 < p) :
    SetPosition auth sid nid p script =
      SetPosition auth sid nid (if p < 0 then 0 else if p > 100 then 100 else p) script := by
  have hp : PercentToPosition p =
      PercentToPosition (if p < 0 then 0 else if p > 100 then 100 else p) := by
    rcases h with h | h
    · rw [if_pos h]
      simp only [PercentToPosition]
      rw [if_pos h, if_neg (by norm_num), if_neg (by norm_num)]
    · rw [if_neg (by linarith), if_pos h]
      simp only [PercentToPosition]
      rw [if_neg (by linarith), if_pos h, if_neg (by norm_num), if_neg (by norm_num)]
  unfold SetPosition
  rw [hp]

/-- Witness for the amended C2 at percent 150. -/
theorem setPosition_clamps_witness :
    SetPosition true 0 1 150 [] =
      SetPosition true 0 1 (if (150 : ℚ) < 0 then 0 else if (150 : ℚ) > 100 then 100 else 150) [] :=
  setPosition_clamps_out_of_range true 0 1 150 [] (Or.inr (by norm_num))

/-- Claim C3: for the two streamed operations, a timeout after the initial
confirmation terminates the stream successfully with the items collected so
far (the collection loops return what they accumulated when they hit a
timeout), whereas a timeout waiting for the initial confirmation is a
failure. -/
theorem streamed_ops_timeout_semantics {α : Type} (parse : List Nat → Option α)
    (script rest : RecvScript) (f : Frame) (sid : Nat) (ids : List Nat)
    (st : SensorStatus) (now : Nat) :
    (waitFor GW_GET_ALL_NODES_INFORMATION_CFM script = some (f, rest) →
      GetAllNodes true parse script =
        ⟨.ok (collectNodes parse rest), [BuildGetAllNodesRequest]⟩) ∧
    (waitFor GW_GET_ALL_NODES_INFORMATION_CFM script = none →
      (GetAllNodes true parse script).result = .error .confirmTimeout) ∧
    (waitFor GW_GET_LIMITATION_STATUS_CFM script = some (f, rest) →
      (GetLimitationStatus true sid ids script st now).1.result =
        .ok (collectLimitations now rest st).1) ∧
    (waitFor GW_GET_LIMITATION_STATUS_CFM script = none →
      (GetLimitationStatus true sid ids script st now).1.result =
        .error .confirmTimeout) := by
  refine ⟨fun h => ?_, fun h => ?_, fun h => ?_, fun h => ?_⟩ <;>
    simp [GetAllNodes, GetLimitationStatus, h]

/-- Witness for C3 on a concrete script: confirmation, one node
notification, then a timeout. -/
theorem streamed_ops_timeout_witness :
    GetAllNodes true (fun d => some (d.headD 0))
        [some ⟨GW_GET_ALL_NODES_INFORMATION_CFM, []⟩,
         some ⟨GW_GET_ALL_NODES_INFORMATION_NTF, [7]⟩, none] =
      ⟨.ok (collectNodes (fun d => some (d.headD 0))
        [some ⟨GW_GET_ALL_NODES_INFORMATION_NTF, [7]⟩, none]),
       [BuildGetAllNodesRequest]⟩ :=
  (streamed_ops_timeout_semantics (fun d => some (d.headD 0))
    [some ⟨GW_GET_ALL_NODES_INFORMATION_CFM, []⟩,
     some ⟨GW_GET_ALL_NODES_INFORMATION_NTF, [7]⟩, none]
    [some ⟨GW_GET_ALL_NODES_INFORMATION_NTF, [7]⟩, none]
    ⟨GW_GET_ALL_NODES_INFORMATION_CFM, []⟩ 0 [] ⟨false, false, 0⟩ 0).1 (by rfl)

/-- Claim C6: whenever the sensor refresh's underlying limitation query
fails (not authenticated, or timeout waiting for the confirmation), the
rain/wind flags are left exactly as they were and `last_update` is set to
the time of the attempt. -/
theorem refreshSensorStatus_failure_preserves_flags (auth : Bool) (sid : Nat)
    (ids : List Nat) (script : RecvScript) (st : SensorStatus) (now : Nat)
    (e : ClientError)
    (h : (GetLimitationStatus auth sid ids script st now).1.result = .error e) :
    (RefreshSensorStatus auth sid ids script st now).rainDetected = st.rainDetected ∧
    (RefreshSensorStatus auth sid ids script st now).windDetected = st.windDetected ∧
    (RefreshSensorStatus auth sid ids script st now).lastUpdate = now := by
  have h2 := getLimitationStatus_error_state auth sid ids script st now e h
  simp [RefreshSensorStatus, h, h2]

/-- Witness for C6: an unauthenticated refresh attempt at time 9 keeps the
flags of the previous reading (rain detected at time 5). -/
theorem refreshSensorStatus_failure_witness :
    (RefreshSensorStatus false 0 [] [] ⟨true, false, 5⟩ 9).rainDetected = true ∧
    (RefreshSensorStatus false 0 [] [] ⟨true, false, 5⟩ 9).windDetected = false ∧
    (RefreshSensorStatus false 0 [] [] ⟨true, false, 5⟩ 9).lastUpdate = 9 :=
  refreshSensorStatus_failure_preserves_flags false 0 [] [] ⟨true, false, 5⟩ 9
    .notAuthenticated rfl

/-- Claim C8: in every reachable client state, the reconnect tick only
initiates a connect when the state is not Ready, and the refresh tick only
initiates an enumeration when the state is not Disconnected. -/
theorem supervisor_tick_guards (s : ClientFlags) (h : ReachableFlags s) :
    (reconnectTickConnects s = true → isReady s = false) ∧
    (refreshTickEnumerates s = true → isDisconnected s = false) := by
  constructor
  · intro hr
    have hc : s.connected = false := by
      simpa [reconnectTickConnects] using hr
    simp [isReady, hc]
  · intro hf
    have ha : s.authenticated = true := hf
    have hc : s.connected = true := reachable_auth_connected h ha
    simp [isDisconnected, hc]

/-- Witness for C8 at the reachable Ready state. -/
theorem supervisor_tick_guards_witness :
    (reconnectTickConnects ⟨true, true⟩ = true → isReady ⟨true, true⟩ = false) ∧
    (refreshTickEnumerates ⟨true, true⟩ = true → isDisconnected ⟨true, true⟩ = false) :=
  supervisor_tick_guards ⟨true, true⟩
    (Relation.ReflTransGen.tail
      (Relation.ReflTransGen.single (ClientStep.connectOk ⟨false, false⟩))
      (ClientStep.authOk ⟨true, false⟩ rfl))

/-- Claim C9: applying a node update whose id is not in the cache leaves the
cache entirely unchanged (and `UpdateNode` has no error to report). -/
theorem updateNode_unknown_id_noop (cache : NodeCache) (upd : NodeRec) (now : Nat)
    (h : ∀ kv ∈ cache, kv.1 ≠ upd.id) :
    UpdateNode cache upd now = cache := by
  unfold UpdateNode
  induction cache with
  | nil => rfl
  | cons kv rest ih =>
    simp only [List.map_cons]
    rw [if_neg (h kv (List.mem_cons_self kv rest))]
    rw [ih (fun x hx => h x (List.mem_cons_of_mem kv hx))]

/-- Witness for C9: a two-entry cache and an update for the absent id 9. -/
theorem updateNode_unknown_id_witness :
    UpdateNode [(1, ⟨1, "w", 0, 0, "", 0, 0, 0, 0, 0, 0⟩),
                (2, ⟨2, "s", 0, 0, "", 0, 0, 0, 0, 0, 0⟩)]
        ⟨9, "x", 0, 4, "Executing", 100, 100 / 51200 * 100, 0, 0, 0, 3⟩ 3 =
      [(1, ⟨1, "w", 0, 0, "", 0, 0, 0, 0, 0, 0⟩),
       (2, ⟨2, "s", 0, 0, "", 0, 0, 0, 0, 0, 0⟩)] :=
  updateNode_unknown_id_noop _ _ 3 (by decide)

/-- Claim C10: every synchronous operation checks its session-state
precondition first: unauthenticated `GetAllNodes`, `SetPosition`, `Stop`
and `GetLimitationStatus` fail immediately, write nothing, and leave the
sensor state unchanged; an unconnected `Authenticate` does likewise. -/
theorem ops_check_session_precondition {α : Type} (parse : List Nat → Option α)
    (script : RecvScript) (sid nid : Nat) (p : ℚ) (ids : List Nat)
    (st : SensorStatus) (now : Nat) (pw : List Nat) :
    GetAllNodes false parse script = ⟨.error .notAuthenticated, []⟩ ∧
    SetPosition false sid nid p script = ⟨.error .notAuthenticated, []⟩ ∧
    Stop false sid nid = ⟨.error .notAuthenticated, []⟩ ∧
    GetLimitationStatus false sid ids script st now =
      (⟨.error .notAuthenticated, []⟩, st) ∧
    Authenticate false pw script = ⟨.error .notConnected, []⟩ :=
  ⟨rfl, rfl, rfl, rfl, rfl⟩

theorem escByte_ne_nil (b : Nat) : escByte b ≠ [] := by
  unfold escByte
  split_ifs <;> simp

theorem slipEnd_not_mem_escByte (b : Nat) : SlipEnd ∉ escByte b := by
  unfold escByte
  split_ifs with h1 h2
  · decide
  · decide
  · simp only [List.mem_singleton]
    exact fun hc => h1 hc.symm

theorem slipEnd_not_mem_escaped (l : List Nat) : SlipEnd ∉ l.flatMap escByte := by
  intro hmem
  rcases List.mem_flatMap.mp hmem with ⟨b, _, hb⟩
  exact slipEnd_not_mem_escByte b hb

theorem escaped_ne_nil (l : List Nat) (h : l ≠ []) : l.flatMap escByte ≠ [] := by
  intro hc
  rcases l with _ | ⟨b, t⟩
  · exact h rfl
  · simp only [List.flatMap_cons, List.append_eq_nil] at hc
    exact escByte_ne_nil b hc.1

theorem unescape_cons_lit (b : Nat) (l : List Nat) (hb : ¬b = SlipEsc) :
    unescape (b :: l) = (unescape l).map (b :: ·) := by
  rw [unescape.eq_def]
  simp only [hb, if_false]

theorem unescape_escaped_append (l t : List Nat) :
    unescape (l.flatMap escByte ++ t) = (unescape t).map (l ++ ·) := by
  induction l with
  | nil =>
    simp only [List.flatMap_nil, List.nil_append]
    cases unescape t <;> rfl
  | cons b rest ih =>
    simp only [List.flatMap_cons, List.append_assoc]
    by_cases hb : b = SlipEnd
    · subst hb
      rw [show escByte SlipEnd = [SlipEsc, SlipEscEnd] from rfl]
      simp only [List.cons_append, List.nil_append]
      rw [show unescape (SlipEsc :: SlipEscEnd :: (rest.flatMap escByte ++ t)) =
        (unescape (rest.flatMap escByte ++ t)).map (SlipEnd :: ·) from rfl]
      rw [ih]
      cases unescape t <;> rfl
    · by_cases hb2 : b = SlipEsc
      · subst hb2
        rw [show escByte SlipEsc = [SlipEsc, SlipEscEsc] from by
          unfold escByte
          rw [if_neg (by decide), if_pos rfl]]
        simp only [List.cons_append, List.nil_append]
        rw [show unescape (SlipEsc :: SlipEscEsc :: (rest.flatMap escByte ++ t)) =
          (unescape (rest.flatMap escByte ++ t)).map (SlipEsc :: ·) from rfl]
        rw [ih]
        cases unescape t <;> rfl
      · rw [show escByte b = [b] from by
          unfold escByte
          rw [if_neg hb, if_neg hb2]]
        simp only [List.cons_append, List.nil_append]
        rw [unescape_cons_lit b _ hb2, ih]
        cases unescape t <;> rfl

theorem unescape_escaped (l : List Nat) : unescape (l.flatMap escByte) = .ok l := by
  have h := unescape_escaped_append l []
  rw [List.append_nil] at h
  rw [h]
  show Except.map (l ++ ·) (Except.ok []) = Except.ok l
  simp [Except.map]

theorem foldl_xor_init (x : Nat) (l : List Nat) :
    l.foldl (· ^^^ ·) x = x ^^^ l.foldl (· ^^^ ·) 0 := by
  induction l generalizing x with
  | nil => simp
  | cons b t ih =>
    simp only [List.foldl_cons]
    rw [ih (x ^^^ b), ih (0 ^^^ b), Nat.zero_xor, Nat.xor_assoc]

theorem xorBytes_append (a b : List Nat) :
    xorBytes (a ++ b) = xorBytes a ^^^ xorBytes b := by
  unfold xorBytes
  rw [List.foldl_append, foldl_xor_init]

theorem xorBytes_cons (b : Nat) (l : List Nat) :
    xorBytes (b :: l) = b ^^^ xorBytes l := by
  unfold xorBytes
  rw [List.foldl_cons, foldl_xor_init, Nat.zero_xor]

theorem stripEnds_cons_end (l : List Nat) : stripEnds (SlipEnd :: l) = stripEnds l := by
  unfold stripEnds
  rw [List.dropWhile_cons_of_pos (by simp)]

theorem stripEnds_append_end (l : List Nat) : stripEnds (l ++ [SlipEnd]) = stripEnds l := by
  unfold stripEnds
  rw [List.dropWhile_append]
  by_cases h : (l.dropWhile (· == SlipEnd)).isEmpty
  · rw [if_pos h]
    rw [List.isEmpty_iff] at h
    rw [h]
    simp
  · rw [if_neg h]
    rw [List.reverse_append]
    simp only [List.reverse_cons, List.reverse_nil, List.nil_append, List.singleton_append]
    rw [List.dropWhile_cons_of_pos (by simp)]

theorem stripEnds_eq_self (l : List Nat) (h1 : l.head? ≠ some SlipEnd)
    (h2 : l.getLast? ≠ some SlipEnd) : stripEnds l = l := by
  unfold stripEnds
  have hd : l.dropWhile (· == SlipEnd) = l := by
    cases l with
    | nil => rfl
    | cons x t =>
      rw [List.dropWhile_cons_of_neg]
      simp only [List.head?_cons, ne_eq, Option.some.injEq] at h1
      simp [h1]
  rw [hd]
  have hr : l.reverse.dropWhile (· == SlipEnd) = l.reverse := by
    cases hrev : l.reverse with
    | nil => rfl
    | cons x t =>
      rw [List.dropWhile_cons_of_neg]
      have : l.getLast? = some x := by
        rw [← List.head?_reverse, hrev, List.head?_cons]
      simp only [this, ne_eq, Option.some.injEq] at h2
      simp [h2]
  rw [hr, List.reverse_reverse]

theorem stripEnds_slipEncode (body : List Nat) :
    stripEnds (slipEncode body) = body.flatMap escByte := by
  have hmem : SlipEnd ∉ body.flatMap escByte := slipEnd_not_mem_escaped body
  unfold slipEncode
  rw [show SlipEnd :: body.flatMap escByte ++ [SlipEnd] =
    SlipEnd :: (body.flatMap escByte ++ [SlipEnd]) from rfl]
  rw [stripEnds_cons_end, stripEnds_append_end]
  refine stripEnds_eq_self _ ?_ ?_
  · intro hc
    exact hmem (List.mem_of_mem_head? (show SlipEnd ∈ _ from hc))
  · intro hc
    exact hmem (List.mem_of_mem_getLast? (show SlipEnd ∈ _ from hc))

theorem slipDecode_slipEncode (body : List Nat) (h : body ≠ []) :
    slipDecode (slipEncode body) = .ok body := by
  have hesc : body.flatMap escByte ≠ [] := escaped_ne_nil body h
  unfold slipDecode
  rw [stripEnds_slipEncode]
  rw [if_neg (by
    unfold slipEncode
    simp only [List.length_cons, List.length_append, List.length_singleton]
    omega)]
  rw [if_neg (by simp [List.isEmpty_iff, hesc])]
  exact unescape_escaped body

theorem decodeBody_encodeBody (cmd : Nat) (data : List Nat) (hcmd : cmd < 65536) :
    decodeBody (encodeBody cmd data) = .ok ⟨cmd, data⟩ := by
  have hbody : encodeBody cmd data =
      (((data.length + 3) % 256) :: (u16be cmd ++ data)) ++
        [xorBytes (((data.length + 3) % 256) :: (u16be cmd ++ data))] := rfl
  set pre := ((data.length + 3) % 256) :: (u16be cmd ++ data) with hpre
  have hprelen : pre.length = data.length + 3 := by
    simp [hpre, u16be]
  unfold decodeBody
  rw [hbody]
  have hlen : (pre ++ [xorBytes pre]).length = data.length + 4 := by
    simp only [List.length_append, List.length_singleton, hprelen]
  have hdrop : (pre ++ [xorBytes pre]).dropLast = pre := List.dropLast_concat
  have hlast : (pre ++ [xorBytes pre]).getLastD 0 = xorBytes pre := by
    simp [List.getLastD_concat]
  have hhead : (pre ++ [xorBytes pre]).headD 0 = (data.length + 3) % 256 := by
    rw [hpre]
    rfl
  rw [hlen, hdrop, hlast, hhead]
  rw [if_neg (by omega)]
  rw [if_neg (by simp)]
  rw [if_neg (by
    have := Nat.mod_le (data.length + 3) 256
    omega)]
  have hb1 : (pre ++ [xorBytes pre]).getD 1 0 = cmd % 65536 / 256 := by
    simp [hpre, u16be, List.getD_cons_succ, List.getD_cons_zero, List.cons_append]
  have hb2 : (pre ++ [xorBytes pre]).getD 2 0 = cmd % 256 := by
    simp [hpre, u16be, List.getD_cons_succ, List.getD_cons_zero, List.cons_append]
  have hdata : ((pre ++ [xorBytes pre]).drop 3).dropLast = data := by
    have h3 : (pre ++ [xorBytes pre]).drop 3 = data ++ [xorBytes pre] := by
      rw [List.drop_append_of_le_length (by omega)]
      rw [show pre.drop 3 = data from by simp [hpre, u16be, List.cons_append]]
    rw [h3, List.dropLast_concat]
  rw [hb1, hb2, hdata]
  have hc2 : cmd % 65536 = cmd := Nat.mod_eq_of_lt hcmd
  rw [hc2]
  have hdm : cmd / 256 * 256 + cmd % 256 = cmd := by omega
  rw [hdm]

/-- Claim C1: decoding an encoded frame succeeds and returns the original
command id and payload, for every 16-bit command id and every payload. -/
theorem decode_encode_roundtrip (cmd : Nat) (data : List Nat) (hcmd : cmd < 65536) :
    DecodeFrame (EncodeFrame cmd data) = .ok ⟨cmd, data⟩ := by
  have hne : encodeBody cmd data ≠ [] := by
    rw [show encodeBody cmd data =
      (((data.length + 3) % 256) :: (u16be cmd ++ data)) ++
        [xorBytes (((data.length + 3) % 256) :: (u16be cmd ++ data))] from rfl]
    simp
  unfold EncodeFrame DecodeFrame
  rw [slipDecode_slipEncode (encodeBody cmd data) hne]
  exact decodeBody_encodeBody cmd data hcmd

/-- Witness for C1 at a concrete command and payload containing both
escape-sensitive bytes. -/
theorem decode_encode_roundtrip_witness :
    DecodeFrame (EncodeFrame 12288 [192, 219, 7]) = .ok ⟨12288, [192, 219, 7]⟩ :=
  decode_encode_roundtrip 12288 [192, 219, 7] (by norm_num)

theorem unescape_error_invalid : ∀ (l : List Nat) (e : FrameError),
    unescape l = .error e → e = .invalidFrame
  | [], e, h => absurd h (by simp [unescape])
  | b :: rest, e, h => by
    by_cases hb : b = SlipEsc
    · subst hb
      cases rest with
      | nil =>
        rw [show unescape [SlipEsc] = Except.error FrameError.invalidFrame from rfl] at h
        exact (Except.error.inj h).symm
      | cons c rest2 =>
        by_cases hc : c = SlipEscEnd
        · subst hc
          rw [show unescape (SlipEsc :: SlipEscEnd :: rest2) =
            (unescape rest2).map (SlipEnd :: ·) from rfl] at h
          cases hu : unescape rest2 with
          | error e2 =>
            rw [hu] at h
            have he : e2 = e := Except.error.inj h
            rw [← he]
            exact unescape_error_invalid rest2 e2 hu
          | ok v =>
            rw [hu] at h
            exact absurd h (by simp [Except.map])
        · by_cases hc2 : c = SlipEscEsc
          · subst hc2
            rw [show unescape (SlipEsc :: SlipEscEsc :: rest2) =
              (unescape rest2).map (SlipEsc :: ·) from rfl] at h
            cases hu : unescape rest2 with
            | error e2 =>
              rw [hu] at h
              have he : e2 = e := Except.error.inj h
              rw [← he]
              exact unescape_error_invalid rest2 e2 hu
            | ok v =>
              rw [hu] at h
              exact absurd h (by simp [Except.map])
          · rw [show unescape (SlipEsc :: c :: rest2) =
              (if c = SlipEscEnd then (unescape rest2).map (SlipEnd :: ·)
               else if c = SlipEscEsc then (unescape rest2).map (SlipEsc :: ·)
               else Except.error FrameError.invalidFrame) from rfl] at h
            rw [if_neg hc, if_neg hc2] at h
            exact (Except.error.inj h).symm
    · rw [unescape_cons_lit b rest hb] at h
      cases hu : unescape rest with
      | error e2 =>
        rw [hu] at h
        have he : e2 = e := Except.error.inj h
        rw [← he]
        exact unescape_error_invalid rest e2 hu
      | ok v =>
        rw [hu] at h
        exact absurd h (by simp [Except.map])

theorem decodeFrame_eq_error (raw : List Nat) (e : FrameError)
    (h : slipDecode raw = .error e) : DecodeFrame raw = .error e := by
  unfold DecodeFrame
  rw [h]

theorem decodeFrame_eq_decodeBody (raw body : List Nat)
    (h : slipDecode raw = .ok body) : DecodeFrame raw = decodeBody body := by
  unfold DecodeFrame
  rw [h]

/-- Counterexample to claim C4 as stated: the raw input
`[C0, 05, 00, 00, 05, C0]` has an unescaped body of 4 bytes with no
dangling escape whose final byte equals the XOR of the preceding bytes, so
the claim says decoding succeeds; the code returns `InvalidFrame` because
the length byte (5) exceeds the number of remaining body bytes (3). -/
theorem decodeFrame_length_byte_cex :
    unescape (stripEnds [0xC0, 0x05, 0x00, 0x00, 0x05, 0xC0]) = .ok [5, 0, 0, 5] ∧
    xorBytes [5, 0, 0] = 5 ∧
    DecodeFrame [0xC0, 0x05, 0x00, 0x00, 0x05, 0xC0] = .error .invalidFrame :=
  ⟨by decide, by decide, by decide⟩

/-- Claim C4 amended: `DecodeFrame` fails with `FrameTooShort` when the raw
input has fewer than 2 bytes or the unescaped body fewer than 4 bytes; with
`InvalidFrame` when the raw input (of at least 2 bytes) consists entirely
of END bytes, on a dangling or invalid escape, or — after the checksum
verifies — when the length byte exceeds the number of remaining body
bytes; with `ChecksumMismatch` when the final body byte differs from the
XOR of all preceding body bytes; and succeeds otherwise, returning the
command and payload extracted from the body. -/
theorem decodeFrame_error_characterization (raw : List Nat) :
    (DecodeFrame raw = .error .frameTooShort ↔
      raw.length < 2 ∨
      (2 ≤ raw.length ∧ stripEnds raw ≠ [] ∧
        ∃ body, unescape (stripEnds raw) = .ok body ∧ body.length < 4)) ∧
    (DecodeFrame raw = .error .checksumMismatch ↔
      2 ≤ raw.length ∧ stripEnds raw ≠ [] ∧
      ∃ body, unescape (stripEnds raw) = .ok body ∧ 4 ≤ body.length ∧
        xorBytes body.dropLast ≠ body.getLastD 0) ∧
    (DecodeFrame raw = .error .invalidFrame ↔
      2 ≤ raw.length ∧
      (stripEnds raw = [] ∨
        unescape (stripEnds raw) = .error .invalidFrame ∨
        (∃ body, unescape (stripEnds raw) = .ok body ∧ 4 ≤ body.length ∧
          xorBytes body.dropLast = body.getLastD 0 ∧
          body.length - 1 < body.headD 0))) ∧
    (∀ fr : Frame, DecodeFrame raw = .ok fr ↔
      2 ≤ raw.length ∧ stripEnds raw ≠ [] ∧
      ∃ body, unescape (stripEnds raw) = .ok body ∧ 4 ≤ body.length ∧
        xorBytes body.dropLast = body.getLastD 0 ∧
        body.headD 0 ≤ body.length - 1 ∧
        fr = ⟨body.getD 1 0 * 256 + body.getD 2 0, (body.drop 3).dropLast⟩) := by
  by_cases h1 : raw.length < 2
  · have hD : DecodeFrame raw = .error .frameTooShort := by
      apply decodeFrame_eq_error
      unfold slipDecode
      rw [if_pos h1]
    refine ⟨?_, ?_, ?_, ?_⟩
    · simp [hD, h1]
    · constructor
      · intro hc
        rw [hD] at hc
        exact absurd (Except.error.inj hc) (by decide)
      · intro hc
        omega
    · constructor
      · intro hc
        rw [hD] at hc
        exact absurd (Except.error.inj hc) (by decide)
      · intro hc
        omega
    · intro fr
      constructor
      · intro hc
        rw [hD] at hc
        exact absurd hc (by simp)
      · intro hc
        omega
  · by_cases h2 : stripEnds raw = []
    · have hD : DecodeFrame raw = .error .invalidFrame := by
        apply decodeFrame_eq_error
        unfold slipDecode
        rw [if_neg h1, if_pos (by simp [List.isEmpty_iff, h2])]
      have hu0 : unescape (stripEnds raw) = .ok [] := by
        rw [h2]
        rfl
      refine ⟨?_, ?_, ?_, ?_⟩
      · constructor
        · intro hc
          rw [hD] at hc
          exact absurd (Except.error.inj hc) (by decide)
        · intro hc
          rcases hc with hc | ⟨_, hne, _⟩
          · omega
          · exact absurd h2 hne
      · constructor
        · intro hc
          rw [hD] at hc
          exact absurd (Except.error.inj hc) (by decide)
        · intro hc
          exact absurd h2 hc.2.1
      · simp [hD, h2]
        omega
      · intro fr
        constructor
        · intro hc
          rw [hD] at hc
          exact absurd hc (by simp)
        · intro hc
          exact absurd h2 hc.2.1
    · cases hu : unescape (stripEnds raw) with
      | error e =>
        have he := unescape_error_invalid _ e hu
        subst he
        have hD : DecodeFrame raw = .error .invalidFrame := by
          apply decodeFrame_eq_error
          unfold slipDecode
          rw [if_neg h1, if_neg (by simp [List.isEmpty_iff, h2])]
          exact hu
        refine ⟨?_, ?_, ?_, ?_⟩
        · constructor
          · intro hc
            rw [hD] at hc
            exact absurd (Except.error.inj hc) (by decide)
          · intro hc
            rcases hc with hc | ⟨_, _, body, hb, _⟩
            · omega
            · exact absurd hb (by simp)
        · constructor
          · intro hc
            rw [hD] at hc
            exact absurd (Except.error.inj hc) (by decide)
          · intro hc
            rcases hc.2.2 with ⟨body, hb, _⟩
            exact absurd hb (by simp)
        · constructor
          · intro _
            exact ⟨by omega, Or.inr (Or.inl rfl)⟩
          · intro _
            exact hD
        · intro fr
          constructor
          · intro hc
            rw [hD] at hc
            exact absurd hc (by simp)
          · intro hc
            rcases hc.2.2 with ⟨body, hb, _⟩
            exact absurd hb (by simp)
      | ok body =>
        have hS : slipDecode raw = .ok body := by
          unfold slipDecode
          rw [if_neg h1, if_neg (by simp [List.isEmpty_iff, h2])]
          exact hu
        have hD : DecodeFrame raw = decodeBody body :=
          decodeFrame_eq_decodeBody raw body hS
        by_cases h4 : body.length < 4
        · have hB : decodeBody body = .error .frameTooShort := by
            unfold decodeBody
            rw [if_pos h4]
          refine ⟨?_, ?_, ?_, ?_⟩
          · constructor
            · intro _
              exact Or.inr ⟨by omega, h2, body, rfl, h4⟩
            · intro _
              rw [hD, hB]
          · constructor
            · intro hc
              rw [hD, hB] at hc
              exact absurd (Except.error.inj hc) (by decide)
            · intro hc
              rcases hc.2.2 with ⟨b2, hb2, hlen, _⟩
              cases Except.ok.inj hb2
              omega
          · constructor
            · intro hc
              rw [hD, hB] at hc
              exact absurd (Except.error.inj hc) (by decide)
            · intro hc
              rcases hc.2 with hc2 | hc2 | ⟨b2, hb2, hlen, _⟩
              · exact absurd hc2 h2
              · exact absurd hc2 (by simp)
              · cases Except.ok.inj hb2
                omega
          · intro fr
            constructor
            · intro hc
              rw [hD, hB] at hc
              exact absurd hc (by simp)
            · intro hc
              rcases hc.2.2 with ⟨b2, hb2, hlen, _⟩
              cases Except.ok.inj hb2
              omega
        · by_cases h5 : xorBytes body.dropLast = body.getLastD 0
          · by_cases h6 : body.length - 1 < body.headD 0
            · have hB : decodeBody body = .error .invalidFrame := by
                unfold decodeBody
                rw [if_neg (by omega), if_neg (not_not_intro h5), if_pos h6]
              refine ⟨?_, ?_, ?_, ?_⟩
              · constructor
                · intro hc
                  rw [hD, hB] at hc
                  exact absurd (Except.error.inj hc) (by decide)
                · intro hc
                  rcases hc with hc | ⟨_, _, b2, hb2, hlen⟩
                  · omega
                  · cases Except.ok.inj hb2
                    omega
              · constructor
                · intro hc
                  rw [hD, hB] at hc
                  exact absurd (Except.error.inj hc) (by decide)
                · intro hc
                  rcases hc.2.2 with ⟨b2, hb2, _, hcs⟩
                  have hbe : body = b2 := Except.ok.inj hb2
                  rw [← hbe] at hcs
                  exact absurd h5 hcs
              · constructor
                · intro _
                  exact ⟨by omega, Or.inr (Or.inr ⟨body, rfl, by omega, h5, h6⟩)⟩
                · intro _
                  rw [hD, hB]
              · intro fr
                constructor
                · intro hc
                  rw [hD, hB] at hc
                  exact absurd hc (by simp)
                · intro hc
                  rcases hc.2.2 with ⟨b2, hb2, _, _, hhd, _⟩
                  cases Except.ok.inj hb2
                  omega
            · have hB : decodeBody body =
                  .ok ⟨body.getD 1 0 * 256 + body.getD 2 0, (body.drop 3).dropLast⟩ := by
                unfold decodeBody
                rw [if_neg (by omega), if_neg (not_not_intro h5), if_neg h6]
              refine ⟨?_, ?_, ?_, ?_⟩
              · constructor
                · intro hc
                  rw [hD, hB] at hc
                  exact absurd hc (by simp)
                · intro hc
                  rcases hc with hc | ⟨_, _, b2, hb2, hlen⟩
                  · omega
                  · cases Except.ok.inj hb2
                    omega
              · constructor
                · intro hc
                  rw [hD, hB] at hc
                  exact absurd hc (by simp)
                · intro hc
                  rcases hc.2.2 with ⟨b2, hb2, _, hcs⟩
                  have hbe : body = b2 := Except.ok.inj hb2
                  rw [← hbe] at hcs
                  exact absurd h5 hcs
              · constructor
                · intro hc
                  rw [hD, hB] at hc
                  exact absurd hc (by simp)
                · intro hc
                  rcases hc.2 with hc2 | hc2 | ⟨b2, hb2, _, _, hhd⟩
                  · exact absurd hc2 h2
                  · exact absurd hc2 (by simp)
                  · cases Except.ok.inj hb2
                    omega
              · intro fr
                rw [hD, hB]
                constructor
                · intro hc
                  refine ⟨by omega, h2, body, rfl, by omega, h5, by omega, ?_⟩
                  exact (Except.ok.inj hc).symm
                · intro hc
                  rcases hc.2.2 with ⟨b2, hb2, _, _, _, hfr⟩
                  have hbe : body = b2 := Except.ok.inj hb2
                  rw [hfr, hbe]
          · have hB : decodeBody body = .error .checksumMismatch := by
              unfold decodeBody
              rw [if_neg (by omega), if_pos h5]
            refine ⟨?_, ?_, ?_, ?_⟩
            · constructor
              · intro hc
                rw [hD, hB] at hc
                exact absurd (Except.error.inj hc) (by decide)
              · intro hc
                rcases hc with hc | ⟨_, _, b2, hb2, hlen⟩
                · omega
                · cases Except.ok.inj hb2
                  omega
            · constructor
              · intro _
                exact ⟨by omega, h2, body, rfl, by omega, h5⟩
              · intro _
                rw [hD, hB]
            · constructor
              · intro hc
                rw [hD, hB] at hc
                exact absurd (Except.error.inj hc) (by decide)
              · intro hc
                rcases hc.2 with hc2 | hc2 | ⟨b2, hb2, _, hcs, _⟩
                · exact absurd hc2 h2
                · exact absurd hc2 (by simp)
                · have hbe : body = b2 := Except.ok.inj hb2
                  rw [← hbe] at hcs
                  exact absurd hcs h5
            · intro fr
              constructor
              · intro hc
                rw [hD, hB] at hc
                exact absurd hc (by simp)
              · intro hc
                rcases hc.2.2 with ⟨b2, hb2, _, hcs, _⟩
                have hbe : body = b2 := Except.ok.inj hb2
                rw [← hbe] at hcs
                exact absurd hcs h5

theorem stripEnds_eq_self_of_not_mem (l : List Nat) (h : SlipEnd ∉ l) : stripEnds l = l := by
  refine stripEnds_eq_self l ?_ ?_
  · intro hc
    exact h (List.mem_of_mem_head? (show SlipEnd ∈ _ from hc))
  · intro hc
    exact h (List.mem_of_mem_getLast? (show SlipEnd ∈ _ from hc))

theorem xorBytes_singleton (b : Nat) : xorBytes [b] = b := by
  simp [xorBytes]

theorem xor_left_cancel (a b c : Nat) (h : a ^^^ b = a ^^^ c) : b = c := by
  have h2 := congrArg (a ^^^ ·) h
  simpa [← Nat.xor_assoc, Nat.xor_self, Nat.zero_xor] using h2

theorem xor_eq_shift (a b c : Nat) (h : a ^^^ b = c) : b = a ^^^ c := by
  rw [← h, ← Nat.xor_assoc, Nat.xor_self, Nat.zero_xor]

theorem xor_pow_ne_self (a k : Nat) : ¬a ^^^ 2 ^ k = a := by
  intro hc
  have h0 : a ^^^ 2 ^ k = a ^^^ 0 := by rw [Nat.xor_zero]; exact hc
  have h1 := xor_left_cancel a _ _ h0
  have h2 : 0 < 2 ^ k := Nat.two_pow_pos k
  omega

theorem xor_mid_cancel (x y c m : Nat) (h1 : x ^^^ (c ^^^ y) = 0)
    (h2 : x ^^^ (m ^^^ y) = 0) : c = m := by
  have hc : x = c ^^^ y := by
    have h3 := xor_eq_shift x (c ^^^ y) 0 h1
    rw [Nat.xor_zero] at h3
    exact h3.symm
  have hm : x = m ^^^ y := by
    have h3 := xor_eq_shift x (m ^^^ y) 0 h2
    rw [Nat.xor_zero] at h3
    exact h3.symm
  have heq : c ^^^ y = m ^^^ y := by rw [← hc, hm]
  have h4 := congrArg (· ^^^ y) heq
  simpa [Nat.xor_assoc, Nat.xor_self, Nat.xor_zero] using h4

theorem unescape_esc_dangling : unescape [SlipEsc] = .error .invalidFrame := rfl

theorem unescape_esc_pair_end (E : List Nat) :
    unescape (SlipEsc :: SlipEscEnd :: E) = (unescape E).map (SlipEnd :: ·) := rfl

theorem unescape_esc_pair_esc (E : List Nat) :
    unescape (SlipEsc :: SlipEscEsc :: E) = (unescape E).map (SlipEsc :: ·) := rfl

theorem unescape_esc_bad (Y : Nat) (E : List Nat) (h1 : ¬Y = SlipEscEnd)
    (h2 : ¬Y = SlipEscEsc) :
    unescape (SlipEsc :: Y :: E) = .error .invalidFrame := by
  rw [unescape.eq_def]
  simp [h1, h2]

theorem flipBit_cons_zero (b : Nat) (l : List Nat) (k : Nat) :
    flipBit (b :: l) 0 k = (b ^^^ 2 ^ k) :: l := by
  simp [flipBit]

theorem flipBit_cons_succ (b : Nat) (l : List Nat) (i k : Nat) :
    flipBit (b :: l) (i + 1) k = b :: flipBit l i k := by
  simp [flipBit]

theorem flipBit_append_left (A B : List Nat) (u k : Nat) (hu : u < A.length) :
    flipBit (A ++ B) u k = flipBit A u k ++ B := by
  induction A generalizing u with
  | nil => exact absurd hu (by simp)
  | cons a A ih =>
    cases u with
    | zero =>
      rw [List.cons_append, flipBit_cons_zero, flipBit_cons_zero, List.cons_append]
    | succ u2 =>
      rw [List.cons_append, flipBit_cons_succ, flipBit_cons_succ,
        ih u2 (by simp only [List.length_cons] at hu; omega), List.cons_append]

theorem flipBit_append_right (A B : List Nat) (u k : Nat) :
    flipBit (A ++ B) (A.length + u) k = A ++ flipBit B u k := by
  induction A with
  | nil => simp
  | cons a A ih =>
    rw [List.cons_append,
      show (a :: A).length + u = (A.length + u) + 1 from by
        simp only [List.length_cons]
        omega,
      flipBit_cons_succ, ih, List.cons_append]

theorem flatMap_index_decomp : ∀ (l : List Nat) (j : Nat),
    j < (l.flatMap escByte).length →
    ∃ l₁ b l₂ u, l = l₁ ++ b :: l₂ ∧ u < (escByte b).length ∧
      j = (l₁.flatMap escByte).length + u
  | [], j, h => absurd h (by simp)
  | b :: rest, j, h => by
    by_cases hj : j < (escByte b).length
    · exact ⟨[], b, rest, j, by simp, hj, by simp⟩
    · have hlen : (escByte b).length ≤ j := le_of_not_lt hj
      have h2 : j - (escByte b).length < (rest.flatMap escByte).length := by
        simp only [List.flatMap_cons, List.length_append] at h
        omega
      obtain ⟨l₁, b2, l₂, u, hdec, hu, hjj⟩ :=
        flatMap_index_decomp rest (j - (escByte b).length) h2
      refine ⟨b :: l₁, b2, l₂, u, by rw [hdec]; rfl, hu, ?_⟩
      simp only [List.flatMap_cons, List.length_append]
      omega

theorem slipDecode_ok_unescape (raw body : List Nat) (h : slipDecode raw = .ok body) :
    unescape (stripEnds raw) = .ok body := by
  unfold slipDecode at h
  split_ifs at h
  exact h

theorem dropLast_append_getLastD (l : List Nat) (h : l ≠ []) :
    l.dropLast ++ [l.getLastD 0] = l := by
  have h1 : l.getLastD 0 = l.getLast h := by
    rw [List.getLastD_eq_getLast?, List.getLast?_eq_getLast l h]
    rfl
  rw [h1]
  exact List.dropLast_append_getLast h

theorem decode_ok_checksum (raw : List Nat) (fr : Frame)
    (h : DecodeFrame raw = .ok fr) :
    ∃ body, unescape (stripEnds raw) = .ok body ∧ 4 ≤ body.length ∧
      xorBytes body = 0 := by
  cases hs : slipDecode raw with
  | error e =>
    rw [decodeFrame_eq_error raw e hs] at h
    exact absurd h (by simp)
  | ok body =>
    rw [decodeFrame_eq_decodeBody raw body hs] at h
    unfold decodeBody at h
    by_cases hl : body.length < 4
    · rw [if_pos hl] at h
      exact absurd h (by simp)
    · rw [if_neg hl] at h
      by_cases hcs : xorBytes body.dropLast ≠ body.getLastD 0
      · rw [if_pos hcs] at h
        exact absurd h (by simp)
      · rw [if_neg hcs] at h
        refine ⟨body, slipDecode_ok_unescape raw body hs, by omega, ?_⟩
        have hne : body ≠ [] := by
          intro hc
          rw [hc] at hl
          simp at hl
        have hx : xorBytes body.dropLast = body.getLastD 0 := not_not.mp hcs
        calc xorBytes body
            = xorBytes (body.dropLast ++ [body.getLastD 0]) := by
              rw [dropLast_append_getLastD body hne]
          _ = xorBytes body.dropLast ^^^ body.getLastD 0 := by
              rw [xorBytes_append, xorBytes_singleton]
          _ = 0 := by rw [hx, Nat.xor_self]

theorem encodeBody_eq (cmd : Nat) (data : List Nat) : encodeBody cmd data =
    (((data.length + 3) % 256) :: (u16be cmd ++ data)) ++
      [xorBytes (((data.length + 3) % 256) :: (u16be cmd ++ data))] := rfl

theorem encodeBody_ne_nil (cmd : Nat) (data : List Nat) : encodeBody cmd data ≠ [] := by
  rw [encodeBody_eq]
  simp

theorem encodeBody_length4 (cmd : Nat) (data : List Nat) :
    4 ≤ (encodeBody cmd data).length := by
  rw [encodeBody_eq]
  simp [u16be]

theorem xorBytes_encodeBody (cmd : Nat) (data : List Nat) :
    xorBytes (encodeBody cmd data) = 0 := by
  rw [encodeBody_eq, xorBytes_append, xorBytes_singleton, Nat.xor_self]

theorem head?_ne_slipEnd_of_append (A rest : List Nat) (hA : A ≠ [])
    (hAm : SlipEnd ∉ A) : (A ++ rest).head? ≠ some SlipEnd := by
  rcases A with _ | ⟨a, A2⟩
  · exact absurd rfl hA
  · simp only [List.cons_append, List.head?_cons]
    intro hc
    have ha : a = SlipEnd := by
      exact Option.some.inj hc
    exact hAm (ha ▸ List.mem_cons_self a A2)

theorem getLast?_ne_slipEnd_of_append (rest C : List Nat) (hC : C ≠ [])
    (hCm : SlipEnd ∉ C) : (rest ++ C).getLast? ≠ some SlipEnd := by
  rw [List.getLast?_append_of_ne_nil rest hC]
  intro hc
  exact hCm (List.mem_of_mem_getLast? (show SlipEnd ∈ _ from hc))

theorem bitflip_detected_general (B : List Nat) (i k : Nat) (hk : k < 8)
    (hBxor : xorBytes B = 0) (hi : i < (slipEncode B).length) :
    ∃ e, DecodeFrame (flipBit (slipEncode B) i k) = .error e := by
  have hEnoC0 : SlipEnd ∉ B.flatMap escByte := slipEnd_not_mem_escaped B
  have hSE : slipEncode B = SlipEnd :: (B.flatMap escByte ++ [SlipEnd]) := rfl
  cases hD : DecodeFrame (flipBit (slipEncode B) i k) with
  | error e => exact ⟨e, rfl⟩
  | ok fr =>
    exfalso
    obtain ⟨body2, hu2, _hlen2, hxor2⟩ := decode_ok_checksum _ fr hD
    rw [hSE] at hu2 hi
    simp only [List.length_cons, List.length_append, List.length_singleton,
      List.length_nil] at hi
    cases i with
    | zero =>
      rw [flipBit_cons_zero] at hu2
      have hX1 : ¬(SlipEnd ^^^ 2 ^ k) = SlipEnd := xor_pow_ne_self SlipEnd k
      have hX2 : ¬(SlipEnd ^^^ 2 ^ k) = SlipEsc := by interval_cases k <;> decide
      have hX0 : ¬(SlipEnd ^^^ 2 ^ k) = 0 := by interval_cases k <;> decide
      rw [show (SlipEnd ^^^ 2 ^ k) :: (B.flatMap escByte ++ [SlipEnd]) =
          ((SlipEnd ^^^ 2 ^ k) :: B.flatMap escByte) ++ [SlipEnd] from rfl,
        stripEnds_append_end,
        stripEnds_eq_self_of_not_mem _ (by
          simp only [List.mem_cons]
          rintro (hc | hc)
          · exact hX1 hc.symm
          · exact hEnoC0 hc),
        unescape_cons_lit _ _ hX2, unescape_escaped] at hu2
      have hb2 : (SlipEnd ^^^ 2 ^ k) :: B = body2 := Except.ok.inj hu2
      rw [← hb2, xorBytes_cons, hBxor, Nat.xor_zero] at hxor2
      exact hX0 hxor2
    | succ j =>
      rw [flipBit_cons_succ, stripEnds_cons_end] at hu2
      by_cases hjE : j < (B.flatMap escByte).length
      · -- the flip lands inside the escaped body
        rw [flipBit_append_left _ _ _ _ hjE, stripEnds_append_end] at hu2
        obtain ⟨l₁, b, l₂, u, hdec, hu_lt, hj⟩ := flatMap_index_decomp B j hjE
        have hBd : xorBytes l₁ ^^^ (b ^^^ xorBytes l₂) = 0 := by
          rw [hdec, xorBytes_append, xorBytes_cons] at hBxor
          exact hBxor
        have hl1m : SlipEnd ∉ l₁.flatMap escByte := slipEnd_not_mem_escaped l₁
        have hl2m : SlipEnd ∉ l₂.flatMap escByte := slipEnd_not_mem_escaped l₂
        have hEsplit : B.flatMap escByte =
            l₁.flatMap escByte ++ (escByte b ++ l₂.flatMap escByte) := by
          rw [hdec]
          simp [List.flatMap_append, List.flatMap_cons]
        rw [hEsplit, hj, flipBit_append_right,
          flipBit_append_left _ _ _ _ hu_lt] at hu2
        by_cases hbC0 : b = SlipEnd
        · subst hbC0
          rw [show escByte SlipEnd = [SlipEsc, SlipEscEnd] from rfl] at hu_lt hu2
          simp only [List.length_cons, List.length_nil] at hu_lt
          interval_cases u
          · rw [flipBit_cons_zero] at hu2
            have hD1 : ¬(SlipEsc ^^^ 2 ^ k) = SlipEsc := xor_pow_ne_self SlipEsc k
            have hD2 : ¬(SlipEsc ^^^ 2 ^ k) = SlipEnd := by interval_cases k <;> decide
            rw [stripEnds_eq_self_of_not_mem _ (by
                simp only [List.mem_append, List.mem_cons, List.not_mem_nil, or_false, or_assoc]
                rintro (hc | hc | hc | hc)
                · exact hl1m hc
                · exact hD2 hc.symm
                · exact absurd hc.symm (by decide)
                · exact hl2m hc)] at hu2
            simp only [List.cons_append, List.nil_append] at hu2
            rw [unescape_escaped_append, unescape_cons_lit _ _ hD1,
              unescape_cons_lit _ _ (by decide), unescape_escaped] at hu2
            have hb2 : l₁ ++ (SlipEsc ^^^ 2 ^ k) :: SlipEscEnd :: l₂ = body2 :=
              Except.ok.inj hu2
            rw [← hb2, xorBytes_append, xorBytes_cons, xorBytes_cons,
              ← Nat.xor_assoc (SlipEsc ^^^ 2 ^ k) SlipEscEnd (xorBytes l₂)] at hxor2
            have heq := xor_mid_cancel _ _ _ _ hBd hxor2
            revert heq
            interval_cases k <;> decide
          · rw [flipBit_cons_succ, flipBit_cons_zero] at hu2
            by_cases hk0 : k = 0
            · subst hk0
              rw [show SlipEscEnd ^^^ 2 ^ 0 = SlipEscEsc from by decide] at hu2
              rw [stripEnds_eq_self_of_not_mem _ (by
                  simp only [List.mem_append, List.mem_cons, List.not_mem_nil, or_false, or_assoc]
                  rintro (hc | hc | hc | hc)
                  · exact hl1m hc
                  · exact absurd hc.symm (by decide)
                  · exact absurd hc.symm (by decide)
                  · exact hl2m hc)] at hu2
              simp only [List.cons_append, List.nil_append] at hu2
              rw [unescape_escaped_append, unescape_esc_pair_esc, unescape_escaped] at hu2
              have hb2 : l₁ ++ SlipEsc :: l₂ = body2 := Except.ok.inj hu2
              rw [← hb2, xorBytes_append, xorBytes_cons] at hxor2
              have heq := xor_mid_cancel _ _ _ _ hBd hxor2
              exact absurd heq (by decide)
            · have hY1 : ¬(SlipEscEnd ^^^ 2 ^ k) = SlipEscEnd := xor_pow_ne_self _ k
              have hY2 : ¬(SlipEscEnd ^^^ 2 ^ k) = SlipEscEsc := by
                intro hc
                have h2k := xor_eq_shift SlipEscEnd (2 ^ k) SlipEscEsc hc
                rw [show SlipEscEnd ^^^ SlipEscEsc = 1 from by decide] at h2k
                have h3 : 1 < 2 ^ k := Nat.one_lt_two_pow_iff.mpr hk0
                omega
              have hY3 : ¬(SlipEscEnd ^^^ 2 ^ k) = SlipEnd := by
                interval_cases k <;> decide
              rw [stripEnds_eq_self_of_not_mem _ (by
                  simp only [List.mem_append, List.mem_cons, List.not_mem_nil, or_false, or_assoc]
                  rintro (hc | hc | hc | hc)
                  · exact hl1m hc
                  · exact absurd hc.symm (by decide)
                  · exact hY3 hc.symm
                  · exact hl2m hc)] at hu2
              simp only [List.cons_append, List.nil_append] at hu2
              rw [unescape_escaped_append, unescape_esc_bad _ _ hY1 hY2] at hu2
              exact Except.noConfusion hu2
        · by_cases hbDB : b = SlipEsc
          · subst hbDB
            rw [show escByte SlipEsc = [SlipEsc, SlipEscEsc] from by
              unfold escByte
              rw [if_neg (by decide), if_pos rfl]] at hu_lt hu2
            simp only [List.length_cons, List.length_nil] at hu_lt
            interval_cases u
            · rw [flipBit_cons_zero] at hu2
              have hD1 : ¬(SlipEsc ^^^ 2 ^ k) = SlipEsc := xor_pow_ne_self SlipEsc k
              have hD2 : ¬(SlipEsc ^^^ 2 ^ k) = SlipEnd := by interval_cases k <;> decide
              rw [stripEnds_eq_self_of_not_mem _ (by
                  simp only [List.mem_append, List.mem_cons, List.not_mem_nil, or_false, or_assoc]
                  rintro (hc | hc | hc | hc)
                  · exact hl1m hc
                  · exact hD2 hc.symm
                  · exact absurd hc.symm (by decide)
                  · exact hl2m hc)] at hu2
              simp only [List.cons_append, List.nil_append] at hu2
              rw [unescape_escaped_append, unescape_cons_lit _ _ hD1,
                unescape_cons_lit _ _ (by decide), unescape_escaped] at hu2
              have hb2 : l₁ ++ (SlipEsc ^^^ 2 ^ k) :: SlipEscEsc :: l₂ = body2 :=
                Except.ok.inj hu2
              rw [← hb2, xorBytes_append, xorBytes_cons, xorBytes_cons,
                ← Nat.xor_assoc (SlipEsc ^^^ 2 ^ k) SlipEscEsc (xorBytes l₂)] at hxor2
              have heq := xor_mid_cancel _ _ _ _ hBd hxor2
              revert heq
              interval_cases k <;> decide
            · rw [flipBit_cons_succ, flipBit_cons_zero] at hu2
              by_cases hk0 : k = 0
              · subst hk0
                rw [show SlipEscEsc ^^^ 2 ^ 0 = SlipEscEnd from by decide] at hu2
                rw [stripEnds_eq_self_of_not_mem _ (by
                    simp only [List.mem_append, List.mem_cons, List.not_mem_nil, or_false, or_assoc]
                    rintro (hc | hc | hc | hc)
                    · exact hl1m hc
                    · exact absurd hc.symm (by decide)
                    · exact absurd hc.symm (by decide)
                    · exact hl2m hc)] at hu2
                simp only [List.cons_append, List.nil_append] at hu2
                rw [unescape_escaped_append, unescape_esc_pair_end, unescape_escaped] at hu2
                have hb2 : l₁ ++ SlipEnd :: l₂ = body2 := Except.ok.inj hu2
                rw [← hb2, xorBytes_append, xorBytes_cons] at hxor2
                have heq := xor_mid_cancel _ _ _ _ hBd hxor2
                exact absurd heq (by decide)
              · have hY2 : ¬(SlipEscEsc ^^^ 2 ^ k) = SlipEscEsc := xor_pow_ne_self _ k
                have hY1 : ¬(SlipEscEsc ^^^ 2 ^ k) = SlipEscEnd := by
                  intro hc
                  have h2k := xor_eq_shift SlipEscEsc (2 ^ k) SlipEscEnd hc
                  rw [show SlipEscEsc ^^^ SlipEscEnd = 1 from by decide] at h2k
                  have h3 : 1 < 2 ^ k := Nat.one_lt_two_pow_iff.mpr hk0
                  omega
                have hY3 : ¬(SlipEscEsc ^^^ 2 ^ k) = SlipEnd := by
                  interval_cases k <;> decide
                rw [stripEnds_eq_self_of_not_mem _ (by
                    simp only [List.mem_append, List.mem_cons, List.not_mem_nil, or_false, or_assoc]
                    rintro (hc | hc | hc | hc)
                    · exact hl1m hc
                    · exact absurd hc.symm (by decide)
                    · exact hY3 hc.symm
                    · exact hl2m hc)] at hu2
                simp only [List.cons_append, List.nil_append] at hu2
                rw [unescape_escaped_append, unescape_esc_bad _ _ hY1 hY2] at hu2
                exact Except.noConfusion hu2
          · -- literal byte
            rw [show escByte b = [b] from by
              unfold escByte
              rw [if_neg hbC0, if_neg hbDB]] at hu_lt hu2
            have hu0 : u = 0 := by
              simp only [List.length_cons, List.length_nil] at hu_lt
              omega
            subst hu0
            rw [flipBit_cons_zero] at hu2
            by_cases hbD : b ^^^ 2 ^ k = SlipEsc
            · rw [hbD] at hu2
              have hbv : b = SlipEsc ^^^ 2 ^ k := by
                rw [← hbD, Nat.xor_assoc, Nat.xor_self, Nat.xor_zero]
              cases hl2 : l₂ with
              | nil =>
                rw [hl2] at hu2
                simp only [List.flatMap_nil, List.append_nil, List.cons_append,
                  List.nil_append] at hu2
                rw [stripEnds_eq_self_of_not_mem _ (by
                    simp only [List.mem_append, List.mem_cons, List.not_mem_nil, or_false, or_assoc]
                    rintro (hc | hc)
                    · exact hl1m hc
                    · exact absurd hc.symm (by decide)), unescape_escaped_append,
                  unescape_esc_dangling] at hu2
                exact Except.noConfusion hu2
              | cons b₂ l₂' =>
                rw [hl2] at hu2 hBd
                rw [xorBytes_cons, ← Nat.xor_assoc b b₂ (xorBytes l₂')] at hBd
                simp only [List.flatMap_cons] at hu2
                have hl2'm : SlipEnd ∉ l₂'.flatMap escByte := slipEnd_not_mem_escaped l₂'
                by_cases hb₂1 : b₂ = SlipEnd
                · subst hb₂1
                  rw [show escByte SlipEnd = [SlipEsc, SlipEscEnd] from rfl] at hu2
                  simp only [List.cons_append, List.nil_append] at hu2
                  rw [stripEnds_eq_self_of_not_mem _ (by
                      simp only [List.mem_append, List.mem_cons, List.not_mem_nil, or_false, or_assoc]
                      rintro (hc | hc | hc | hc | hc)
                      · exact hl1m hc
                      · exact absurd hc.symm (by decide)
                      · exact absurd hc.symm (by decide)
                      · exact absurd hc.symm (by decide)
                      · exact hl2'm hc), unescape_escaped_append,
                    unescape_esc_bad _ _ (by decide) (by decide)] at hu2
                  exact Except.noConfusion hu2
                · by_cases hb₂2 : b₂ = SlipEsc
                  · subst hb₂2
                    rw [show escByte SlipEsc = [SlipEsc, SlipEscEsc] from by
                      unfold escByte
                      rw [if_neg (by decide), if_pos rfl]] at hu2
                    simp only [List.cons_append, List.nil_append] at hu2
                    rw [stripEnds_eq_self_of_not_mem _ (by
                        simp only [List.mem_append, List.mem_cons, List.not_mem_nil,
                          or_false, or_assoc]
                        rintro (hc | hc | hc | hc | hc)
                        · exact hl1m hc
                        · exact absurd hc.symm (by decide)
                        · exact absurd hc.symm (by decide)
                        · exact absurd hc.symm (by decide)
                        · exact hl2'm hc), unescape_escaped_append,
                      unescape_esc_bad _ _ (by decide) (by decide)] at hu2
                    exact Except.noConfusion hu2
                  · rw [show escByte b₂ = [b₂] from by
                      unfold escByte
                      rw [if_neg hb₂1, if_neg hb₂2]] at hu2
                    simp only [List.cons_append, List.nil_append] at hu2
                    by_cases hb₂3 : b₂ = SlipEscEnd
                    · subst hb₂3
                      rw [stripEnds_eq_self_of_not_mem _ (by
                          simp only [List.mem_append, List.mem_cons, List.not_mem_nil,
                            or_false, or_assoc]
                          rintro (hc | hc | hc | hc)
                          · exact hl1m hc
                          · exact absurd hc.symm (by decide)
                          · exact absurd hc.symm (by decide)
                          · exact hl2'm hc), unescape_escaped_append,
                        unescape_esc_pair_end, unescape_escaped] at hu2
                      have hb2 : l₁ ++ SlipEnd :: l₂' = body2 := Except.ok.inj hu2
                      rw [← hb2, xorBytes_append, xorBytes_cons] at hxor2
                      have heq := xor_mid_cancel _ _ _ _ hBd hxor2
                      rw [hbv] at heq
                      revert heq
                      interval_cases k <;> decide
                    · by_cases hb₂4 : b₂ = SlipEscEsc
                      · subst hb₂4
                        rw [stripEnds_eq_self_of_not_mem _ (by
                            simp only [List.mem_append, List.mem_cons, List.not_mem_nil,
                              or_false, or_assoc]
                            rintro (hc | hc | hc | hc)
                            · exact hl1m hc
                            · exact absurd hc.symm (by decide)
                            · exact absurd hc.symm (by decide)
                            · exact hl2'm hc), unescape_escaped_append,
                          unescape_esc_pair_esc, unescape_escaped] at hu2
                        have hb2 : l₁ ++ SlipEsc :: l₂' = body2 := Except.ok.inj hu2
                        rw [← hb2, xorBytes_append, xorBytes_cons] at hxor2
                        have heq := xor_mid_cancel _ _ _ _ hBd hxor2
                        rw [hbv] at heq
                        revert heq
                        interval_cases k <;> decide
                      · rw [stripEnds_eq_self_of_not_mem _ (by
                            simp only [List.mem_append, List.mem_cons, List.not_mem_nil,
                              or_false, or_assoc]
                            rintro (hc | hc | hc | hc)
                            · exact hl1m hc
                            · exact absurd hc.symm (by decide)
                            · exact hb₂1 hc.symm
                            · exact hl2'm hc), unescape_escaped_append,
                          unescape_esc_bad _ _ hb₂3 hb₂4] at hu2
                        exact Except.noConfusion hu2
            · by_cases hbC0' : b ^^^ 2 ^ k = SlipEnd
              · rw [hbC0'] at hu2
                have hbv : b = SlipEnd ^^^ 2 ^ k := by
                  rw [← hbC0', Nat.xor_assoc, Nat.xor_self, Nat.xor_zero]
                cases hl1 : l₁ with
                | nil =>
                  rw [hl1] at hu2 hBd
                  simp only [List.flatMap_nil, List.nil_append, List.cons_append] at hu2
                  rw [stripEnds_cons_end, stripEnds_eq_self_of_not_mem _ hl2m,
                    unescape_escaped] at hu2
                  have hb2 : l₂ = body2 := Except.ok.inj hu2
                  rw [← hb2] at hxor2
                  rw [show xorBytes ([] : List Nat) = 0 from rfl, Nat.zero_xor] at hBd
                  rw [hxor2, Nat.xor_zero] at hBd
                  rw [hbv] at hBd
                  revert hBd
                  interval_cases k <;> decide
                | cons a₁ l₁' =>
                  cases hl2 : l₂ with
                  | nil =>
                    rw [hl2] at hu2 hBd
                    simp only [List.flatMap_nil, List.append_nil, List.cons_append,
                      List.nil_append] at hu2
                    rw [stripEnds_append_end, stripEnds_eq_self_of_not_mem _ hl1m,
                      unescape_escaped] at hu2
                    have hb2 : l₁ = body2 := Except.ok.inj hu2
                    rw [← hb2] at hxor2
                    rw [show xorBytes ([] : List Nat) = 0 from rfl, Nat.xor_zero] at hBd
                    rw [hxor2, Nat.zero_xor] at hBd
                    rw [hbv] at hBd
                    revert hBd
                    interval_cases k <;> decide
                  | cons b₂ l₂'' =>
                    have hl1ne : l₁.flatMap escByte ≠ [] :=
                      escaped_ne_nil l₁ (by rw [hl1]; simp)
                    have hl2ne : l₂.flatMap escByte ≠ [] :=
                      escaped_ne_nil l₂ (by rw [hl2]; simp)
                    rw [stripEnds_eq_self _
                        (head?_ne_slipEnd_of_append _ _ hl1ne hl1m)
                        (by
                          rw [show l₁.flatMap escByte ++
                              ([SlipEnd] ++ l₂.flatMap escByte) =
                              (l₁.flatMap escByte ++ [SlipEnd]) ++ l₂.flatMap escByte
                            from (List.append_assoc _ _ _).symm]
                          exact getLast?_ne_slipEnd_of_append _ _ hl2ne hl2m)] at hu2
                    simp only [List.cons_append, List.nil_append] at hu2
                    rw [unescape_escaped_append, unescape_cons_lit _ _ (by decide),
                      unescape_escaped] at hu2
                    have hb2 : l₁ ++ SlipEnd :: l₂ = body2 := Except.ok.inj hu2
                    rw [← hb2, xorBytes_append, xorBytes_cons] at hxor2
                    have heq := xor_mid_cancel _ _ _ _ hBd hxor2
                    exact hbC0 heq
              · rw [stripEnds_eq_self_of_not_mem _ (by
                    simp only [List.mem_append, List.mem_cons, List.not_mem_nil,
                      or_false]
                    rintro (hc | hc | hc)
                    · exact hl1m hc
                    · exact hbC0' hc.symm
                    · exact hl2m hc)] at hu2
                simp only [List.cons_append, List.nil_append] at hu2
                rw [unescape_escaped_append, unescape_cons_lit _ _ hbD,
                  unescape_escaped] at hu2
                have hb2 : l₁ ++ (b ^^^ 2 ^ k) :: l₂ = body2 := Except.ok.inj hu2
                rw [← hb2, xorBytes_append, xorBytes_cons] at hxor2
                have heq := xor_mid_cancel _ _ _ _ hBd hxor2
                exact xor_pow_ne_self b k heq.symm
      · -- the flip lands on the trailing END delimiter
        have hjeq : j = (B.flatMap escByte).length + 0 := by omega
        rw [hjeq, flipBit_append_right, flipBit_cons_zero] at hu2
        have hX1 : ¬(SlipEnd ^^^ 2 ^ k) = SlipEnd := xor_pow_ne_self SlipEnd k
        have hX2 : ¬(SlipEnd ^^^ 2 ^ k) = SlipEsc := by interval_cases k <;> decide
        have hX0 : ¬(SlipEnd ^^^ 2 ^ k) = 0 := by interval_cases k <;> decide
        rw [stripEnds_eq_self_of_not_mem _ (by
            simp only [List.mem_append, List.mem_cons, List.not_mem_nil, or_false, or_assoc]
            rintro (hc | hc)
            · exact hEnoC0 hc
            · exact hX1 hc.symm), unescape_escaped_append,
          unescape_cons_lit _ _ hX2,
          show unescape ([] : List Nat) = .ok [] from rfl] at hu2
        have hb2 : B ++ [SlipEnd ^^^ 2 ^ k] = body2 := Except.ok.inj hu2
        rw [← hb2, xorBytes_append, xorBytes_singleton, hBxor, Nat.zero_xor] at hxor2
        exact hX0 hxor2

/-- Claim C7: flipping any single bit of any single byte of an encoded
frame yields an input on which DecodeFrame returns an error — the escape
structure either breaks (invalid or dangling escape) or the decoded body's
XOR checksum becomes nonzero, so no single-bit flip decodes successfully. -/
theorem encoded_bitflip_detected (cmd : Nat) (data : List Nat) (i k : Nat)
    (hi : i < (EncodeFrame cmd data).length) (hk : k < 8) :
    ∃ e, DecodeFrame (flipBit (EncodeFrame cmd data) i k) = .error e :=
  bitflip_detected_general (encodeBody cmd data) i k hk (xorBytes_encodeBody cmd data) hi

/-- Witness for C7: flipping bit 0 of byte 3 of a concrete encoded frame. -/
theorem encoded_bitflip_detected_witness :
    ∃ e, DecodeFrame (flipBit (EncodeFrame 768 [1, 2]) 3 0) = .error e :=
  encoded_bitflip_detected 768 [1, 2] 3 0 (by decide) (by decide)

example : DecodeFrame (EncodeFrame 0x3000 [0xC0, 0xDB, 7]) = .ok ⟨0x3000, [0xC0, 0xDB, 7]⟩ := by
  decide

example : DecodeFrame [0xC0, 0xC0] = .error .invalidFrame := by decide

example : DecodeFrame [0xC0, 0x05, 0x00, 0x00, 0x05, 0xC0] = .error .invalidFrame := by decide

example : DecodeFrame [0xC0, 0x03, 0x00, 0x00, 0x00, 0xC0] = .error .checksumMismatch := by decide

end KLF200
